import Mathlib

/-!
Shallow embedding of `src/devices/mk2/mikro.rs` from maschine.rs: the Maschine
Mikro mk2 HID report decoder/encoder.  Machine bytes are modelled as `Nat`
(with masks written explicitly where the code masks), `f32` arithmetic as exact
`ℚ` arithmetic with the Rust `as u8` saturating truncation made explicit,
fallible paths (panics, slice-bound violations) as `Except`/`Option`, and the
transport plus event-sink side effects as explicit values: a decode step
returns the list of emitted events, an encode step returns the list of buffers
written.
-/

/-- The closed set of buttons referenced by `mikro.rs` (`MaschineButton` is
declared in `base.rs`; the variants below are exactly the ones this device
file uses). -/
inductive MaschineButton
  | Restart | StepLeft | StepRight | Grid | Play | Rec | Erase | Shift
  | Group | Browse | Sampling | NoteRepeat | Encoder
  | F1 | F2 | F3 | Control | Nav | NavLeft | NavRight | Main
  | Scene | Pattern | PadMode | View | Duplicate | Select | Solo | Mute
deriving DecidableEq, Repr

/-- One call into the `MaschineHandler` event sink. -/
inductive MikroEvent
  | button_down (btn : MaschineButton)
  | button_up (btn : MaschineButton)
  | encoder_step (idx : Nat) (dir : Int)
  | pad_pressed (i : Nat) (pressure : ℚ)
  | pad_aftertouch (i : Nat) (pressure : ℚ)
  | pad_released (i : Nat)
deriving DecidableEq, Repr

/-- `BUTTON_REPORT_TO_MIKROBUTTONS_MAP`: the fixed 4×8 lookup table, including
the three `None` gaps in group 1. -/
def BUTTON_REPORT_TO_MIKROBUTTONS_MAP : List (List (Option MaschineButton)) :=
  [ [ some .Restart, some .StepLeft, some .StepRight, some .Grid,
      some .Play, some .Rec, some .Erase, some .Shift ],
    [ some .Group, some .Browse, some .Sampling, some .NoteRepeat,
      some .Encoder, none, none, none ],
    [ some .F1, some .F2, some .F3, some .Control,
      some .Nav, some .NavLeft, some .NavRight, some .Main ],
    [ some .Scene, some .Pattern, some .PadMode, some .View,
      some .Duplicate, some .Select, some .Solo, some .Mute ] ]

/-- `u32::trailing_zeros`, fuelled to the 32-bit width (returns 32 on 0). -/
def u32TrailingZeros (n : Nat) : Nat :=
  go 32 n
where
  go : Nat → Nat → Nat
    | 0, _ => 0
    | fuel + 1, n => if n &&& 1 = 1 then 0 else 1 + go fuel (n >>> 1)

/-- The inner `while diff != 0` loop of `Mikro::read_buttons` (lines 132-144):
`off = diff.trailing_zeros() + 1`, button looked up at `MAP[idx][8 - off]`
(a `None` entry is the `expect` panic, modelled as `Except.error`), event
down/up by `byte & (1 << (off - 1))`, then `diff >>= off`.  The fuel starts at
8: `diff` comes from an 8-bit XOR and each iteration shifts it right by at
least one. -/
def diffLoop (row : List (Option MaschineButton)) (byte : Nat) :
    Nat → Nat → Except String (List MikroEvent)
  | _, 0 => .ok []
  | 0, _ => .ok []
  | fuel + 1, diff =>
    let off := u32TrailingZeros diff + 1
    match row.getD (8 - off) none with
    | none => .error "unknown button received from device"
    | some btn =>
      let ev := if byte &&& (1 <<< (off - 1)) ≠ 0
        then MikroEvent.button_down btn else MikroEvent.button_up btn
      match diffLoop row byte fuel (diff >>> off) with
      | .error e => .error e
      | .ok evs => .ok (ev :: evs)

/-- One group byte of `Mikro::read_buttons`: diff the new byte against the
stored snapshot byte and run the bit loop against the group's table row. -/
def readGroup (stored byte : Nat) (row : List (Option MaschineButton)) :
    Except String (List MikroEvent) :=
  diffLoop row byte 8 (byte ^^^ stored)

/-- The encoder tail of `Mikro::read_buttons` (lines 149-162): sentinel
adoption, no-change early return, else one step whose direction tests
`(stored + 1) & 0xF == new`.  Returns the emitted events and the updated
snapshot byte. -/
def readEncoder (stored new : Nat) : List MikroEvent × Nat :=
  if stored > 0xF then ([], new)
  else if stored = new then ([], stored)
  else if (stored + 1) &&& 0xF = new then ([MikroEvent.encoder_step 0 1], new)
  else ([MikroEvent.encoder_step 0 (-1)], new)

/-- `Mikro::read_buttons`: the four group bytes in index order 0..3, then the
encoder byte.  Indexing `buf[0..4]`/`buf[4]` on a short payload is the Rust
slice panic, modelled as an error. -/
def read_buttons (buttons buf : List Nat) :
    Except String (List Nat × List MikroEvent) :=
  if buf.length < 5 then .error "index out of range"
  else
    match readGroup (buttons.getD 0 0) (buf.getD 0 0) (BUTTON_REPORT_TO_MIKROBUTTONS_MAP.getD 0 []),
          readGroup (buttons.getD 1 0) (buf.getD 1 0) (BUTTON_REPORT_TO_MIKROBUTTONS_MAP.getD 1 []),
          readGroup (buttons.getD 2 0) (buf.getD 2 0) (BUTTON_REPORT_TO_MIKROBUTTONS_MAP.getD 2 []),
          readGroup (buttons.getD 3 0) (buf.getD 3 0) (BUTTON_REPORT_TO_MIKROBUTTONS_MAP.getD 3 []) with
    | .ok e0, .ok e1, .ok e2, .ok e3 =>
      let enc := readEncoder (buttons.getD 4 0) (buf.getD 4 0)
      .ok ([buf.getD 0 0, buf.getD 1 0, buf.getD 2 0, buf.getD 3 0, enc.2],
           e0 ++ e1 ++ e2 ++ e3 ++ enc.1)
    | .error e, _, _, _ => .error e
    | _, .error e, _, _ => .error e
    | _, _, .error e, _ => .error e
    | _, _, _, .error e => .error e

/-- Pad classification states, §4.2 of the spec. -/
inductive PadState
  | Idle | Pressed | Aftertouch | Released
deriving DecidableEq, Repr

/-- The transition classification returned by `MaschinePad::pressure_val`,
matching the four match arms of `Mikro::read_pads`. -/
inductive PadTransition
  | Pressed | Aftertouch | Released | NoChange
deriving DecidableEq, Repr

/-- Modelled from the spec: `MaschinePad` lives in `base.rs`, which is not in
this source tree.  Per §3 a pad carries a classification state and the last
normalized pressure, defaulting to idle with zero pressure. -/
structure MaschinePad where
  state : PadState
  pressure : ℚ
deriving DecidableEq, Repr

def MaschinePad.default : MaschinePad := { state := PadState.Idle, pressure := 0 }

instance : Inhabited MaschinePad := ⟨MaschinePad.default⟩

/-- Modelled from the spec: `MaschinePad::get_pressure` (in `base.rs`, not in
this source tree) exposes the last normalized pressure (§4.2). -/
def MaschinePad.get_pressure (p : MaschinePad) : ℚ := p.pressure

/-- Line 169 of `mikro.rs`: `((raw & 0xFFF) as f32) / 4095.0`, as an exact
rational. -/
def padPressureOfRaw (raw : Nat) : ℚ := ((raw &&& 0xFFF : Nat) : ℚ) / 4095

/-- The `i`-th 16-bit sample of a pad report payload: the `transmute` to
`&[u16]` on the little-endian target reads bytes `2i` and `2i+1`. -/
def padSample (buf : List Nat) (i : Nat) : Nat :=
  buf.getD (2 * i) 0 + 256 * buf.getD (2 * i + 1) 0

/-- `Mikro::read_pads`, parametric in `pressure_val` (the pad state machine of
`base.rs`, which is not in this source tree): each pad 0..15 gets the
normalized pressure of its sample and one event per non-trivial transition. -/
def read_pads (pv : MaschinePad → ℚ → MaschinePad × PadTransition)
    (pads : List MaschinePad) (buf : List Nat) :
    List MaschinePad × List MikroEvent :=
  (List.range 16).foldl
    (fun acc i =>
      let pressure := padPressureOfRaw (padSample buf i)
      let pr := pv (acc.1.getD i MaschinePad.default) pressure
      let evs : List MikroEvent :=
        match pr.2 with
        | PadTransition.Pressed => [MikroEvent.pad_pressed i pressure]
        | PadTransition.Aftertouch => [MikroEvent.pad_aftertouch i pressure]
        | PadTransition.Released => [MikroEvent.pad_released i]
        | PadTransition.NoChange => []
      (acc.1.set i pr.1, acc.2 ++ evs))
    (pads, [])

/-- Rust `f32 as u8`: truncate toward zero and saturate to 0..255 (for the
nonnegative rationals produced here, truncation is the floor). -/
def f32_as_u8 (x : ℚ) : Nat := min 255 (Int.toNat ⌊max 0 x⌋)

/-- `set_rgb_light` (lines 187-193): halve the brightness, then scale each
8-bit channel of the 24-bit color and truncate to a byte. -/
def set_rgb_light (color : Nat) (brightness : ℚ) : List Nat :=
  let b := brightness * (1 / 2)
  [ f32_as_u8 (b * (((color >>> 16) &&& 0xFF : Nat) : ℚ)),
    f32_as_u8 (b * (((color >>> 8) &&& 0xFF : Nat) : ℚ)),
    f32_as_u8 (b * ((color &&& 0xFF : Nat) : ℚ)) ]

/-- `Mikro::set_pad_light` on the light buffer: slice
`light_buf[offset .. offset+3]` with `offset = 31 + pad*3` (out of bounds is
the Rust slice panic, modelled as `none`) and write the three RGB bytes. -/
def set_pad_light (light_buf : List Nat) (pad color : Nat) (brightness : ℚ) :
    Option (List Nat) :=
  let offset := 31 + pad * 3
  if offset + 3 ≤ light_buf.length then
    let rgb := set_rgb_light color brightness
    some (((light_buf.set offset (rgb.getD 0 0)).set (offset + 1)
        (rgb.getD 1 0)).set (offset + 2) (rgb.getD 2 0))
  else none

/-- Device-handle state: the 79-byte light buffer, the 16 pads and the 5-byte
button snapshot (the transport handle itself carries no decode state). -/
structure Mikro where
  light_buf : List Nat
  pads : List MaschinePad
  buttons : List Nat
deriving DecidableEq, Repr

/-- `Mikro::new`: zeroed 79-byte light buffer except `light_buf[0] = 0x80`,
sixteen default pads, button snapshot `[0, 0, 0, 0, 0x10]`. -/
def Mikro.new : Mikro :=
  { light_buf := (List.replicate 79 0).set 0 0x80,
    pads := List.replicate 16 MaschinePad.default,
    buttons := [0, 0, 0, 0, 0x10] }

/-- The per-button light offset match of `Mikro::set_button_light`
(lines 213-253); `none` is the catch-all `return` for unlit buttons. -/
def buttonLightIndex (btn : MaschineButton) : Option Nat :=
  match btn with
  | .F1 => some 1
  | .F2 => some 2
  | .F3 => some 3
  | .Control => some 4
  | .Nav => some 5
  | .NavLeft => some 6
  | .NavRight => some 7
  | .Main => some 8
  | .Group => some 9
  | .Browse => some 12
  | .Sampling => some 13
  | .NoteRepeat => some 14
  | .Restart => some 15
  | .StepLeft => some 16
  | .StepRight => some 17
  | .Grid => some 18
  | .Play => some 19
  | .Rec => some 20
  | .Erase => some 21
  | .Shift => some 22
  | .Scene => some 23
  | .Pattern => some 24
  | .PadMode => some 25
  | .View => some 26
  | .Duplicate => some 27
  | .Select => some 28
  | .Solo => some 29
  | .Mute => some 30
  | .Encoder => none

/-- `Mikro::set_button_light`: write `(brightness * 255.0) as u8` at the
button's offset, or return unchanged when the button has no light. -/
def set_button_light (m : Mikro) (btn : MaschineButton) (brightness : ℚ) :
    Mikro :=
  match buttonLightIndex btn with
  | none => m
  | some idx =>
    { m with light_buf := m.light_buf.set idx (f32_as_u8 (brightness * 255)) }

/-- `Mikro::write_lights`: one transport write of the whole light buffer; the
`unwrap` on a failed write is the propagated fatal error. -/
def write_lights (write : List Nat → Except String Nat) (m : Mikro) :
    Except String Mikro :=
  match write m.light_buf with
  | .error e => .error e
  | .ok _ => .ok m

/-- The outcome of one transport read: the bytes read, or a transport error. -/
inductive ReadResult
  | ok (data : List Nat)
  | err (e : String)

/-- `Mikro::readable`: one read-decode-dispatch cycle.  A failed read is the
`panic!("read failed: ...")`, modelled as a propagated error; the payload is
`buf[1 .. nbytes]` (empty reads panic on the slice); dispatch is on the
report-kind byte, `0x01` to `read_buttons`, `0x20` to `read_pads`, anything
else only logs.  Returns the updated state and the emitted events. -/
def readable (pv : MaschinePad → ℚ → MaschinePad × PadTransition) (m : Mikro)
    (r : ReadResult) : Except String (Mikro × List MikroEvent) :=
  match r with
  | .err e => .error ("read failed: " ++ e)
  | .ok data =>
    if data.length = 0 then .error "slice index out of range"
    else
      let report_nr := data.getD 0 0
      let buf := data.drop 1
      if report_nr = 0x01 then
        match read_buttons m.buttons buf with
        | .error e => .error e
        | .ok be => .ok ({ m with buttons := be.1 }, be.2)
      else if report_nr = 0x20 then
        let pe := read_pads pv m.pads buf
        .ok ({ m with pads := pe.1 }, pe.2)
      else .ok (m, [])

/-- `Mikro::get_pad_pressure`: `0 ... 15` (inclusive) succeeds with the pad's
pressure, anything else is `Err(())`.  The function reads but never writes
device state. -/
def get_pad_pressure (m : Mikro) (pad_idx : Nat) : Except Unit ℚ :=
  if pad_idx ≤ 15 then
    .ok (MaschinePad.get_pressure (m.pads.getD pad_idx MaschinePad.default))
  else .error ()

/-- The screen buffer as first built by `Mikro::clear_screen`: 265 zero bytes
with `[0] = 0xE0`, `[5] = 0x20`, `[7] = 0x08`. -/
def screen_buf_base : List Nat :=
  (((List.replicate 265 0).set 0 0xE0).set 5 0x20).set 7 0x08

/-- `Mikro::clear_screen` as the sequence of buffers written: four writes in
quadrant order, the `i`-th with `buf[1] = i * 32` (only byte 1 changes between
iterations, so each write equals the base buffer with its quadrant byte). -/
def clear_screen : List (List Nat) :=
  (List.range 4).map (fun i => screen_buf_base.set 1 (i * 32))

/-! ## Helper lemmas -/

theorem getD_set_self (l : List Nat) (i v : Nat) (h : i < l.length) :
    (l.set i v).getD i 0 = v := by
  simp [List.getD_eq_getElem?_getD, List.getElem?_set_self h]

theorem getD_set_ne (l : List Nat) (i j v : Nat) (h : i ≠ j) :
    (l.set i v).getD j 0 = l.getD j 0 := by
  simp [List.getD_eq_getElem?_getD, List.getElem?_set_ne h]

theorem f32_as_u8_eq_floor (x : ℚ) (h0 : 0 ≤ x) (h255 : x ≤ 255) :
    f32_as_u8 x = Int.toNat ⌊x⌋ := by
  have hfl : ⌊x⌋ ≤ 255 := by
    have h := Int.floor_le_floor h255
    simpa using h
  have hmax : max 0 x = x := max_eq_right h0
  unfold f32_as_u8
  rw [hmax]
  omega

theorem channel_scale_bounds (b c : ℚ) (hb0 : 0 ≤ b) (hb1 : b ≤ 1) (hc0 : 0 ≤ c)
    (hc : c ≤ 255) : 0 ≤ b * (1 / 2) * c ∧ b * (1 / 2) * c ≤ 255 := by
  constructor
  · exact mul_nonneg (mul_nonneg hb0 (by norm_num)) hc0
  · nlinarith

/-! ## Claim theorems -/

/-- Claim C2: for every button report's encoder byte, a stored sentinel (>15)
adopts the new byte with no event; an unchanged byte emits no event; otherwise
exactly one encoder-step event fires, clockwise when `(stored + 1) mod 16`
equals the new value and counter-clockwise otherwise. -/
theorem readEncoder_spec (stored new : Nat) :
    (15 < stored → readEncoder stored new = ([], new)) ∧
    (stored ≤ 15 → stored = new → readEncoder stored new = ([], stored)) ∧
    (stored ≤ 15 → stored ≠ new →
      readEncoder stored new =
        (if (stored + 1) % 16 = new then [MikroEvent.encoder_step 0 1]
         else [MikroEvent.encoder_step 0 (-1)], new)) := by
  have hand : (stored + 1) &&& 0xF = (stored + 1) % 16 := by
    simpa using Nat.and_pow_two_sub_one_eq_mod (stored + 1) 4
  refine ⟨fun h => ?_, fun h1 h2 => ?_, fun h1 h2 => ?_⟩
  · simp only [readEncoder]
    rw [if_pos h]
  · simp only [readEncoder]
    rw [if_neg (by omega), if_pos h2]
  · simp only [readEncoder]
    rw [if_neg (by omega), if_neg h2, hand]
    split <;> rfl

/-- Witness for C2: baseline 5 then 6 is one clockwise step (also exercising
the sentinel and wraparound facts through the same theorem's other cases would
need separate instances; 5 → 6 discharges the two hypotheses concretely). -/
theorem readEncoder_spec_witness :
    readEncoder 5 6 =
      (if (5 + 1) % 16 = 6 then [MikroEvent.encoder_step 0 1]
       else [MikroEvent.encoder_step 0 (-1)], 6) :=
  (readEncoder_spec 5 6).2.2 (by decide) (by decide)

/-- Claim C3: for every 16-bit raw pad sample, the normalized pressure the
decoder computes equals `(raw mod 4096) / 4095` (only the low 12 bits matter)
and lies in `[0, 1]`. -/
theorem pad_pressure_normalization (raw : Nat) (hraw : raw < 65536) :
    padPressureOfRaw raw = ((raw % 4096 : Nat) : ℚ) / 4095 ∧
    0 ≤ padPressureOfRaw raw ∧ padPressureOfRaw raw ≤ 1 ∧
    padPressureOfRaw raw = padPressureOfRaw (raw % 4096) := by
  have hmask : raw &&& 0xFFF = raw % 4096 := by
    simpa using Nat.and_pow_two_sub_one_eq_mod raw 12
  have hmask2 : raw % 4096 &&& 0xFFF = raw % 4096 := by
    have h := Nat.and_pow_two_sub_one_eq_mod (raw % 4096) 12
    simpa [Nat.mod_mod] using h
  have hle : raw % 4096 ≤ 4095 := by omega
  refine ⟨?_, ?_, ?_, ?_⟩
  · simp only [padPressureOfRaw, hmask]
  · exact div_nonneg (Nat.cast_nonneg _) (by norm_num)
  · simp only [padPressureOfRaw, hmask]
    rw [div_le_one (by norm_num : (0 : ℚ) < 4095)]
    exact_mod_cast hle
  · simp only [padPressureOfRaw, hmask, hmask2]

/-- Witness for C3: a sample with all four high bits set masks down to 0. -/
theorem pad_pressure_normalization_witness :
    padPressureOfRaw 61440 = ((61440 % 4096 : Nat) : ℚ) / 4095 ∧
    0 ≤ padPressureOfRaw 61440 ∧ padPressureOfRaw 61440 ≤ 1 ∧
    padPressureOfRaw 61440 = padPressureOfRaw (61440 % 4096) :=
  pad_pressure_normalization 61440 (by decide)

/-- Claim C5: a failed transport read makes the read-decode-dispatch cycle
fail with the propagated error (no decoding, no state update), and a failed
transport write makes the light flush fail with the propagated error; neither
operation retries (each consumes exactly one transport outcome). -/
theorem transport_error_propagation :
    (∀ pv m e, readable pv m (ReadResult.err e) =
      .error ("read failed: " ++ e)) ∧
    (∀ write m e, write m.light_buf = .error e →
      write_lights write m = .error e) := by
  constructor
  · intro pv m e
    rfl
  · intro w m e h
    simp [write_lights, h]

/-- Witness for C5: a concrete failing read and a concrete failing write. -/
theorem transport_error_propagation_witness :
    readable (fun p _ => (p, PadTransition.NoChange)) Mikro.new
        (ReadResult.err "io") = .error ("read failed: " ++ "io") ∧
    write_lights (fun _ => .error "io") Mikro.new = .error "io" :=
  ⟨transport_error_propagation.1 _ Mikro.new "io",
   transport_error_propagation.2 (fun _ => .error "io") Mikro.new "io" rfl⟩

/-- Claim C6: `get_pad_pressure` succeeds with the pad's normalized pressure
for every index below 16 and fails with the out-of-range error for every index
at or above 16; it never writes device state (its embedding is a pure read). -/
theorem get_pad_pressure_range (m : Mikro) (pad_idx : Nat) :
    (pad_idx < 16 →
      get_pad_pressure m pad_idx =
        .ok (MaschinePad.get_pressure (m.pads.getD pad_idx MaschinePad.default))) ∧
    (16 ≤ pad_idx → get_pad_pressure m pad_idx = .error ()) := by
  constructor
  · intro h
    simp only [get_pad_pressure]
    rw [if_pos (by omega)]
  · intro h
    simp only [get_pad_pressure]
    rw [if_neg (by omega)]

/-- Witness for C6: index 0 succeeds, index 16 fails, on the fresh device. -/
theorem get_pad_pressure_range_witness :
    get_pad_pressure Mikro.new 0 =
      .ok (MaschinePad.get_pressure (Mikro.new.pads.getD 0 MaschinePad.default)) ∧
    get_pad_pressure Mikro.new 16 = .error () :=
  ⟨(get_pad_pressure_range Mikro.new 0).1 (by decide),
   (get_pad_pressure_range Mikro.new 16).2 (by decide)⟩

/-- Claim C7: a report whose kind byte is neither 0x01 nor 0x20 leaves the
device state untouched and emits no events, and is not an error. -/
theorem readable_unknown_report_kind
    (pv : MaschinePad → ℚ → MaschinePad × PadTransition) (m : Mikro)
    (data : List Nat) (hne : data ≠ []) (h1 : data.getD 0 0 ≠ 0x01)
    (h2 : data.getD 0 0 ≠ 0x20) :
    readable pv m (ReadResult.ok data) = .ok (m, []) := by
  have hlen : ¬ data.length = 0 := fun h => hne (List.length_eq_zero.mp h)
  simp only [readable]
  rw [if_neg hlen, if_neg h1, if_neg h2]

/-- Witness for C7: a one-byte report of kind 0x7F on the fresh device. -/
theorem readable_unknown_report_kind_witness :
    readable (fun p _ => (p, PadTransition.NoChange)) Mikro.new
      (ReadResult.ok [0x7F]) = .ok (Mikro.new, []) :=
  readable_unknown_report_kind _ Mikro.new [0x7F] (by decide) (by decide)
    (by decide)

set_option maxRecDepth 40000 in
/-- Claim C9: `clear_screen` performs exactly four writes in quadrant order
0..3, each a 265-byte fixed-layout buffer with the display-command kind byte
0xE0 at offset 0, quadrant selector `i * 32` at offset 1, and the protocol
constants 0x20 at offset 5 and 0x08 at offset 7. -/
theorem clear_screen_quadrant_writes :
    clear_screen.length = 4 ∧
    ∀ i : Fin 4,
      (clear_screen.getD i []).length = 265 ∧
      (clear_screen.getD i []).getD 0 0 = 0xE0 ∧
      (clear_screen.getD i []).getD 1 0 = (i : Nat) * 32 ∧
      (clear_screen.getD i []).getD 5 0 = 0x20 ∧
      (clear_screen.getD i []).getD 7 0 = 0x08 := by decide

/-- Claim C10: on the 79-byte light buffer, every pad index below 16 gives an
in-bounds 3-byte slice (the write succeeds) and every index at or above 16
overruns the buffer, so `set_pad_light` fails with the slice panic rather than
a recoverable error. -/
theorem set_pad_light_bounds (buf : List Nat) (pad color : Nat) (b : ℚ)
    (hlen : buf.length = 79) :
    (pad < 16 →
      31 + pad * 3 + 3 ≤ 79 ∧ (set_pad_light buf pad color b).isSome = true) ∧
    (16 ≤ pad →
      79 < 31 + pad * 3 + 3 ∧ set_pad_light buf pad color b = none) := by
  constructor
  · intro h
    refine ⟨by omega, ?_⟩
    simp only [set_pad_light]
    rw [if_pos (by omega)]
    rfl
  · intro h
    refine ⟨by omega, ?_⟩
    simp only [set_pad_light]
    rw [if_neg (by omega)]

/-- Witness for C10: pad 15 is the last in-bounds pad, pad 16 overruns. -/
theorem set_pad_light_bounds_witness :
    (31 + 15 * 3 + 3 ≤ 79 ∧
      (set_pad_light Mikro.new.light_buf 15 0 1).isSome = true) ∧
    (79 < 31 + 16 * 3 + 3 ∧ set_pad_light Mikro.new.light_buf 16 0 1 = none) :=
  ⟨(set_pad_light_bounds Mikro.new.light_buf 15 0 1 (by decide)).1 (by decide),
   (set_pad_light_bounds Mikro.new.light_buf 16 0 1 (by decide)).2 (by decide)⟩

/-- Claim C1 (code bug): from snapshot group byte 0x00 to report byte 0x03
(bits 0 and 1 changed), `read_buttons` emits button-down for `Shift` twice and
never reports the bit-1 button.  After `diff >>= off` the next
`trailing_zeros` is relative to the shifted diff but `off` is reused as an
absolute bit position, so the second changed bit resolves to table entry 7
(`Shift`) instead of entry 6 (`Erase`), contradicting per-changed-bit
resolution through the lookup table. -/
theorem read_buttons_multibit_resolution_bug :
    read_buttons [0, 0, 0, 0, 0x10] [0x03, 0, 0, 0, 0x10] =
      .ok ([0x03, 0, 0, 0, 0x10],
        [MikroEvent.button_down MaschineButton.Shift,
         MikroEvent.button_down MaschineButton.Shift]) ∧
    (BUTTON_REPORT_TO_MIKROBUTTONS_MAP.getD 0 []).getD (7 - 0) none =
      some MaschineButton.Shift ∧
    (BUTTON_REPORT_TO_MIKROBUTTONS_MAP.getD 0 []).getD (7 - 1) none =
      some MaschineButton.Erase :=
  ⟨rfl, rfl, rfl⟩

/-- Counterexample for C4 as stated: with pad 0, color 0xFF0000 and
brightness 1.0, the code writes 127 at offset 31, but the claimed formula
`round(0.5 × brightness × channel_byte)` gives 128 for the red channel. -/
theorem set_pad_light_round_formula_cex :
    ((set_pad_light Mikro.new.light_buf 0 0xFF0000 1).getD []).getD 31 0 = 127 ∧
    (round ((1 / 2 : ℚ) * 1 * (((0xFF0000 >>> 16) &&& 0xFF : Nat) : ℚ))).toNat
      = 128 := by
  have hn : ((0xFF0000 >>> 16) &&& 0xFF : Nat) = 255 := by decide
  constructor
  · have hsome : set_pad_light Mikro.new.light_buf 0 0xFF0000 1 =
        some (((Mikro.new.light_buf.set (31 + 0 * 3)
            ((set_rgb_light 0xFF0000 1).getD 0 0)).set (31 + 0 * 3 + 1)
            ((set_rgb_light 0xFF0000 1).getD 1 0)).set (31 + 0 * 3 + 2)
            ((set_rgb_light 0xFF0000 1).getD 2 0)) := by
      simp only [set_pad_light]
      rw [if_pos (by simp [Mikro.new])]
    rw [hsome, Option.getD_some]
    rw [show (31 : Nat) = 31 + 0 * 3 from rfl]
    rw [getD_set_ne _ _ _ _ (by omega), getD_set_ne _ _ _ _ (by omega),
      getD_set_self _ _ _ (by simp [Mikro.new])]
    simp only [set_rgb_light, List.getD_cons_zero]
    rw [f32_as_u8_eq_floor _ (by rw [hn]; norm_num) (by rw [hn]; norm_num)]
    rw [hn]
    have h : ⌊(1 : ℚ) * (1 / 2) * ((255 : Nat) : ℚ)⌋ = 127 := by norm_num
    rw [h]
    rfl
  · rw [hn]
    norm_num [round_eq]
    rfl

/-- Claim C4 (amended): for every pad index below 16, 24-bit color and
brightness in [0,1], `set_pad_light` writes exactly 3 bytes at offset
`31 + 3·pad`, each channel the truncation (floor) of
`0.5 × brightness × channel_byte`, and leaves every other byte unchanged; in
particular pad 0, color 0xFF0000, brightness 1.0 writes 127 at offset 31. -/
theorem set_pad_light_writes_rgb (buf : List Nat) (pad color : Nat) (b : ℚ)
    (hlen : buf.length = 79) (hpad : pad < 16) (hb0 : 0 ≤ b) (hb1 : b ≤ 1) :
    (set_pad_light buf pad color b).isSome = true ∧
    ((set_pad_light buf pad color b).getD []).length = 79 ∧
    ((set_pad_light buf pad color b).getD []).getD (31 + pad * 3) 0 =
      Int.toNat ⌊b * (1 / 2) * (((color >>> 16) &&& 0xFF : Nat) : ℚ)⌋ ∧
    ((set_pad_light buf pad color b).getD []).getD (31 + pad * 3 + 1) 0 =
      Int.toNat ⌊b * (1 / 2) * (((color >>> 8) &&& 0xFF : Nat) : ℚ)⌋ ∧
    ((set_pad_light buf pad color b).getD []).getD (31 + pad * 3 + 2) 0 =
      Int.toNat ⌊b * (1 / 2) * ((color &&& 0xFF : Nat) : ℚ)⌋ ∧
    ∀ j, j < 31 + pad * 3 ∨ 31 + pad * 3 + 3 ≤ j →
      ((set_pad_light buf pad color b).getD []).getD j 0 = buf.getD j 0 := by
  have hcond : 31 + pad * 3 + 3 ≤ buf.length := by omega
  have hsome : set_pad_light buf pad color b =
      some (((buf.set (31 + pad * 3) ((set_rgb_light color b).getD 0 0)).set
          (31 + pad * 3 + 1) ((set_rgb_light color b).getD 1 0)).set
          (31 + pad * 3 + 2) ((set_rgb_light color b).getD 2 0)) := by
    simp only [set_pad_light]
    rw [if_pos hcond]
  have hc0 : (set_rgb_light color b).getD 0 0 =
      Int.toNat ⌊b * (1 / 2) * (((color >>> 16) &&& 0xFF : Nat) : ℚ)⌋ := by
    have hb := channel_scale_bounds b (((color >>> 16) &&& 0xFF : Nat) : ℚ) hb0
      hb1 (Nat.cast_nonneg _) (by exact_mod_cast Nat.and_le_right)
    simp only [set_rgb_light, List.getD_cons_zero]
    exact f32_as_u8_eq_floor _ hb.1 hb.2
  have hc1 : (set_rgb_light color b).getD 1 0 =
      Int.toNat ⌊b * (1 / 2) * (((color >>> 8) &&& 0xFF : Nat) : ℚ)⌋ := by
    have hb := channel_scale_bounds b (((color >>> 8) &&& 0xFF : Nat) : ℚ) hb0
      hb1 (Nat.cast_nonneg _) (by exact_mod_cast Nat.and_le_right)
    simp only [set_rgb_light, List.getD_cons_succ, List.getD_cons_zero]
    exact f32_as_u8_eq_floor _ hb.1 hb.2
  have hc2 : (set_rgb_light color b).getD 2 0 =
      Int.toNat ⌊b * (1 / 2) * ((color &&& 0xFF : Nat) : ℚ)⌋ := by
    have hb := channel_scale_bounds b ((color &&& 0xFF : Nat) : ℚ) hb0 hb1
      (Nat.cast_nonneg _) (by exact_mod_cast Nat.and_le_right)
    simp only [set_rgb_light, List.getD_cons_succ, List.getD_cons_zero]
    exact f32_as_u8_eq_floor _ hb.1 hb.2
  refine ⟨by rw [hsome]; rfl, ?_, ?_, ?_, ?_, ?_⟩
  · rw [hsome]
    simp [hlen]
  · rw [hsome]
    simp only [Option.getD_some]
    rw [getD_set_ne _ _ _ _ (by omega), getD_set_ne _ _ _ _ (by omega),
      getD_set_self _ _ _ (by simp only [List.length_set, hlen]; omega), hc0]
  · rw [hsome]
    simp only [Option.getD_some]
    rw [getD_set_ne _ _ _ _ (by omega),
      getD_set_self _ _ _ (by simp only [List.length_set, hlen]; omega), hc1]
  · rw [hsome]
    simp only [Option.getD_some]
    rw [getD_set_self _ _ _ (by simp only [List.length_set, hlen]; omega), hc2]
  · intro j hj
    rw [hsome]
    simp only [Option.getD_some]
    rw [getD_set_ne _ _ _ _ (by omega), getD_set_ne _ _ _ _ (by omega),
      getD_set_ne _ _ _ _ (by omega)]

/-- Witness for C4 (amended): pad 0, color 0xFF0000, brightness 1 on the
fresh light buffer — the red byte at offset 31 and the untouched byte 0. -/
theorem set_pad_light_writes_rgb_witness :
    ((set_pad_light Mikro.new.light_buf 0 0xFF0000 1).getD []).getD (31 + 0 * 3) 0 =
      Int.toNat ⌊(1 : ℚ) * (1 / 2) * (((0xFF0000 >>> 16) &&& 0xFF : Nat) : ℚ)⌋ ∧
    ((set_pad_light Mikro.new.light_buf 0 0xFF0000 1).getD []).getD 0 0 =
      Mikro.new.light_buf.getD 0 0 :=
  ⟨(set_pad_light_writes_rgb Mikro.new.light_buf 0 0xFF0000 1 (by decide)
      (by decide) (by norm_num) (by norm_num)).2.2.1,
   (set_pad_light_writes_rgb Mikro.new.light_buf 0 0xFF0000 1 (by decide)
      (by decide) (by norm_num) (by norm_num)).2.2.2.2.2 0 (by omega)⟩

/-- Counterexample for C8 as stated: brightness 0.5 on F1 writes 127 at
offset 1, but the claimed formula `round(brightness × 255)` gives 128. -/
theorem set_button_light_round_formula_cex :
    (set_button_light Mikro.new MaschineButton.F1 (1 / 2)).light_buf.getD 1 0
      = 127 ∧
    (round ((1 / 2 : ℚ) * 255)).toNat = 128 := by
  constructor
  · simp only [set_button_light, buttonLightIndex]
    rw [getD_set_self _ _ _ (by simp [Mikro.new])]
    rw [f32_as_u8_eq_floor _ (by norm_num) (by norm_num)]
    have h : ⌊(1 / 2 : ℚ) * 255⌋ = 127 := by norm_num
    rw [h]
    rfl
  · have h : round ((1 / 2 : ℚ) * 255) = 128 := by norm_num [round_eq]
    rw [h]
    rfl

/-- Claim C8 (amended): `set_button_light` modifies at most one byte: for a
button with an indicator it writes the truncation (floor) of
`brightness × 255` — not the round of it — at the button's fixed offset,
leaving every other byte and all other device state unchanged; for a button
with no indicator (the encoder) it is a no-op. -/
theorem set_button_light_spec (m : Mikro) (btn : MaschineButton) (b : ℚ)
    (hb0 : 0 ≤ b) (hb1 : b ≤ 1) :
    (buttonLightIndex btn = none → set_button_light m btn b = m) ∧
    ∀ idx, buttonLightIndex btn = some idx →
      (idx < m.light_buf.length →
        (set_button_light m btn b).light_buf.getD idx 0 = Int.toNat ⌊b * 255⌋) ∧
      (∀ j, j ≠ idx →
        (set_button_light m btn b).light_buf.getD j 0 = m.light_buf.getD j 0) ∧
      (set_button_light m btn b).pads = m.pads ∧
      (set_button_light m btn b).buttons = m.buttons := by
  have hval : f32_as_u8 (b * 255) = Int.toNat ⌊b * 255⌋ :=
    f32_as_u8_eq_floor _ (mul_nonneg hb0 (by norm_num)) (by nlinarith)
  constructor
  · intro h
    simp [set_button_light, h]
  · intro idx hidx
    refine ⟨fun hlt => ?_, fun j hj => ?_, ?_, ?_⟩
    · simp only [set_button_light, hidx]
      exact (getD_set_self _ _ _ hlt).trans hval
    · simp only [set_button_light, hidx]
      exact getD_set_ne _ _ _ _ (fun h => hj h.symm)
    · simp [set_button_light, hidx]
    · simp [set_button_light, hidx]

/-- Witness for C8 (amended): brightness 1 on F1 writes `⌊255⌋` at offset 1,
and the encoder (no indicator) is a no-op. -/
theorem set_button_light_spec_witness :
    (set_button_light Mikro.new MaschineButton.F1 1).light_buf.getD 1 0 =
      Int.toNat ⌊(1 : ℚ) * 255⌋ ∧
    set_button_light Mikro.new MaschineButton.Encoder 1 = Mikro.new :=
  ⟨((set_button_light_spec Mikro.new MaschineButton.F1 1 (by norm_num)
      (by norm_num)).2 1 rfl).1 (by decide),
   (set_button_light_spec Mikro.new MaschineButton.Encoder 1 (by norm_num)
      (by norm_num)).1 rfl⟩
